import Mathlib

/-!
The dcdr command controller (`cli/command_controller.go`)

A shallow embedding of the `Controller` methods `ParseContext`, `Set`, `Delete`,
`CommitFeatures`, `List` and `Import`.

* The storage / version-control collaborator (`api.ClientIFace`) is a record of
  transition functions over an arbitrary collaborator state `σ`: every method
  takes the state, answers, and leaves a new state. Nothing is assumed about it.
* Every collaborator call the controller makes is appended to `World.calls`
  together with its arguments and its answer; every `printer` / `ui` call is
  appended to `World.out`.
* A Go `int` exit code is an `Int`; a Go `(value, error)` pair is an `Except`;
  a run-time panic is `none`.
-/

namespace Dcdr

/-! ## Values -/

/-- A Go `float64` as far as the comparisons `<`, `<=` see it: not-a-number, the two
infinities, or a finite number (both zeros are the rational `0`). -/
inductive F64 where
  | nan
  | negInf
  | posInf
  | finite (q : ℚ)
  deriving DecidableEq

/-- Go `a < b` on `float64`; false as soon as one operand is NaN. -/
def F64.lt : F64 → F64 → Bool
  | .nan, _ => false
  | _, .nan => false
  | .negInf, .negInf => false
  | .negInf, _ => true
  | _, .negInf => false
  | .posInf, _ => false
  | .finite _, .posInf => true
  | .finite a, .finite b => decide (a < b)

/-- Go `a <= b` on `float64`; false as soon as one operand is NaN. -/
def F64.le : F64 → F64 → Bool
  | .nan, _ => false
  | _, .nan => false
  | .negInf, _ => true
  | _, .posInf => true
  | .posInf, _ => false
  | .finite _, .negInf => false
  | .finite a, .finite b => decide (a ≤ b)

/-- The literal `1.0`. -/
def F64.one : F64 := .finite 1

/-- The literal `0` in a `float64` comparison. -/
def F64.zero : F64 := .finite 0

/-- A Go `interface{}` holding a flag value: `nil`, a `bool`, a `float64`, a `string`,
or anything else (kept as text). -/
inductive Value where
  | nil
  | bool (b : Bool)
  | float64 (x : F64)
  | string (s : String)
  | other (raw : String)
  deriving DecidableEq

/-- Modelled from the spec: the declaration of `models.FeatureType` is not in the source.
The spec gives the tags Boolean, Percentile, String and Invalid, and calls the zero value
of the type (what `var ft models.FeatureType` holds) "unset/empty". -/
inductive FeatureType where
  | unset
  | Boolean
  | Percentile
  | Str
  | Invalid
  deriving DecidableEq

/-- The three package-level errors of the controller, and whatever error a collaborator
or the runtime hands back. -/
inductive Error where
  | InvalidFeatureTypeError
  | InvalidRangeError
  | NameRequiredError
  | other (msg : String)
  deriving DecidableEq

/-- The text of an error (`err.Error()`), as given to `errors.New` in the source. -/
def Error.text : Error → String
  | .InvalidFeatureTypeError => "invalid -value format. use -value=[0.0-1.0] or [true|false]"
  | .InvalidRangeError => "invalid -value for percentile. use -value=[0.0-1.0]"
  | .NameRequiredError => "-name is required"
  | .other msg => msg

/-- The fields of `models.Feature` that the controller and `NewFeature` read or write.
A Go struct literal leaves the fields it does not name at their zero value. -/
structure Feature where
  FeatureType : FeatureType := .unset
  Key : String := ""
  Namespace : String := ""
  Scope : String := ""
  Value : Value := .nil
  Comment : String := ""
  UpdatedBy : String := ""
  deriving DecidableEq

/-- The `Git` block of the configuration. -/
structure GitConfig where
  RepoURL : String := ""
  RepoPath : String := ""
  deriving DecidableEq

/-- The configuration as the controller sees it. `GitEnabled` and `PushEnabled` are the
answers of the methods `Config.GitEnabled()` and `Config.PushEnabled()`, whose bodies are
not in the source. -/
structure Config where
  Namespace : String := ""
  Username : String := ""
  Git : GitConfig := {}
  GitEnabled : Bool
  PushEnabled : Bool
  deriving DecidableEq

/-- What the `models` package supplies to the controller. `ParseValueAndFeatureType` is
taken as it comes: its body is not in the source. -/
structure Env where
  DefaultScope : String
  ParseValueAndFeatureType : String → Value × FeatureType

/-- Modelled from the spec: `models.NewFeature` is not in the source. The spec (4.2, 4.5)
says it is a pure construction from name, value, comment, actor, scope and namespace, that
the scope default is applied here if the scope is absent, and that it leaves the feature
type unset. -/
def NewFeature (env : Env) (name : String) (value : Value)
    (comment user scope ns : String) : Feature :=
  { Key := name
    Value := value
    Comment := comment
    UpdatedBy := user
    Scope := if scope = "" then env.DefaultScope else scope
    Namespace := ns }

/-- Modelled from the spec: `Feature.ScopedKey` is not in the source. The spec (3) gives
the derived identity string `namespace/scope/key`. -/
def Feature.ScopedKey (f : Feature) : String :=
  f.Namespace ++ "/" ++ f.Scope ++ "/" ++ f.Key

/-! ## The command line context (`climax.Context`) -/

/-- The two flag maps of a `climax.Context`. -/
structure Context where
  Variable : String → Option String
  NonVariable : String → Bool

/-- `ctx.Get(flagName)`: the value and whether the flag was given. -/
def Context.Get (ctx : Context) (flagName : String) : String × Bool :=
  match ctx.Variable flagName with
  | some v => (v, true)
  | none => ("", false)

/-- `ctx.Is(flagName)`. -/
def Context.Is (ctx : Context) (flagName : String) : Bool :=
  ctx.NonVariable flagName

/-! ## The collaborator and the observable world -/

/-- The interface `api.ClientIFace` over a collaborator state `σ`. `Set` receives a
pointer, so it also answers the feature as it stands after the call. -/
structure ClientIFace (σ : Type) where
  List : String → String → σ → Except Error (List Feature) × σ
  Set : Feature → σ → (Feature × Option Error) × σ
  Delete : String → String → σ → Option Error × σ
  Commit : Feature → Bool → σ → Option Error × σ
  UpdateCurrentSha : σ → (String × Option Error) × σ
  Push : σ → Option Error × σ
  InitRepo : Bool → σ → Option Error × σ
  Namespace : σ → String

/-- One collaborator call: the method, its arguments and its answer. -/
inductive Call where
  | List (pf scope : String) (err : Option Error)
  | Set (ft : Feature) (err : Option Error)
  | Delete (name scope : String) (err : Option Error)
  | Commit (ft : Feature) (deleted : Bool) (err : Option Error)
  | UpdateCurrentSha (sha : String) (err : Option Error)
  | Push (err : Option Error)
  | InitRepo (create : Bool) (err : Option Error)
  | Namespace
  deriving DecidableEq

/-- An argument of a `printer` format. -/
inductive Arg where
  | str (s : String)
  | err (e : Error)
  | val (v : Value)
  deriving DecidableEq

/-- One call of `printer.Say`, `printer.SayErr` or `ui.New().DrawFeatures`. -/
inductive Output where
  | Say (format : String) (args : List Arg)
  | SayErr (format : String) (args : List Arg)
  | DrawFeatures (features : List Feature)
  deriving DecidableEq

/-- A sequence of features, as `Client.List` answers it. -/
abbrev Features := List Feature

/-- The calls made so far, oldest first. -/
abbrev Trace := List Call

/-- The outputs made so far, oldest first. -/
abbrev Outputs := List Output

/-- The entries of a decoded JSON object: key and decoded value. -/
abbrev Entries := List (String × Value)

/-- Everything a command can change or show: the collaborator, the calls made to it and
what was printed. -/
structure World (σ : Type) where
  client : σ
  calls : Trace
  out : Outputs

/-- `printer.Say(format, args...)`. -/
def Say {σ : Type} (format : String) (args : List Arg) (w : World σ) : World σ :=
  { w with out := w.out ++ [Output.Say format args] }

/-- `printer.SayErr(format, args...)`. -/
def SayErr {σ : Type} (format : String) (args : List Arg) (w : World σ) : World σ :=
  { w with out := w.out ++ [Output.SayErr format args] }

/-- The struct `Controller`. -/
structure Controller (σ : Type) where
  Config : Config
  Client : ClientIFace σ

/-- `cc.Client.Set(ft)`, recorded. -/
def callSet {σ : Type} (cc : Controller σ) (ft : Feature) (w : World σ) :
    (Feature × Option Error) × World σ :=
  let r := cc.Client.Set ft w.client
  (r.1, { w with client := r.2, calls := w.calls ++ [Call.Set ft r.1.2] })

/-- `cc.Client.Delete(name, scope)`, recorded. -/
def callDelete {σ : Type} (cc : Controller σ) (name scope : String) (w : World σ) :
    Option Error × World σ :=
  let r := cc.Client.Delete name scope w.client
  (r.1, { w with client := r.2, calls := w.calls ++ [Call.Delete name scope r.1] })

/-- `cc.Client.Commit(ft, deleted)`, recorded. -/
def callCommit {σ : Type} (cc : Controller σ) (ft : Feature) (deleted : Bool) (w : World σ) :
    Option Error × World σ :=
  let r := cc.Client.Commit ft deleted w.client
  (r.1, { w with client := r.2, calls := w.calls ++ [Call.Commit ft deleted r.1] })

/-- `cc.Client.UpdateCurrentSha()`, recorded. -/
def callUpdateCurrentSha {σ : Type} (cc : Controller σ) (w : World σ) :
    (String × Option Error) × World σ :=
  let r := cc.Client.UpdateCurrentSha w.client
  (r.1, { w with client := r.2, calls := w.calls ++ [Call.UpdateCurrentSha r.1.1 r.1.2] })

/-- `cc.Client.Push()`, recorded. -/
def callPush {σ : Type} (cc : Controller σ) (w : World σ) : Option Error × World σ :=
  let r := cc.Client.Push w.client
  (r.1, { w with client := r.2, calls := w.calls ++ [Call.Push r.1] })

/-- `cc.Client.List(pf, scope)`, recorded. -/
def callList {σ : Type} (cc : Controller σ) (pf scope : String) (w : World σ) :
    Except Error Features × World σ :=
  let r := cc.Client.List pf scope w.client
  let e : Option Error := match r.1 with
    | .error e => some e
    | .ok _ => none
  (r.1, { w with client := r.2, calls := w.calls ++ [Call.List pf scope e] })

/-! ## The controller -/

/-- `Controller.CommitFeatures`: the commit pipeline. -/
def Controller.CommitFeatures {σ : Type} (cc : Controller σ) (ft : Feature) (deleted : Bool)
    (w : World σ) : Int × World σ :=
  if cc.Config.GitEnabled then
    let w := Say "committing changes" [] w
    let r := callCommit cc ft deleted w
    match r.1 with
    | some err => (1, SayErr "%v" [.err err] r.2)
    | none =>
      let u := callUpdateCurrentSha cc r.2
      let w := Say "set info/current_sha: %s" [.str u.1.1] u.2
      match u.1.2 with
      | some err => (1, SayErr "%v" [.err err] w)
      | none =>
        if cc.Config.PushEnabled then
          let w := Say "pushing commit to origin" [] w
          let p := callPush cc w
          match p.1 with
          | some err => (1, SayErr "%v" [.err err] p.2)
          | none => (0, p.2)
        else
          (0, w)
  else
    (0, w)

/-- `Controller.ParseContext`. The outer `Option` is `none` when the type assertion
`v.(float64)` panics; otherwise the Go pair `(feature, nil)` or `(nil, err)`. -/
def Controller.ParseContext {σ : Type} (env : Env) (cc : Controller σ) (ctx : Context) :
    Option (Except Error Feature) :=
  let name := (ctx.Get "name").1
  let val := (ctx.Get "value").1
  let cmt := (ctx.Get "comment").1
  let scp := (ctx.Get "scope").1
  if name = "" then
    some (.error .NameRequiredError)
  else
    let build (v : Value) (ft : FeatureType) : Option (Except Error Feature) :=
      let f := NewFeature env name v cmt cc.Config.Username scp cc.Config.Namespace
      some (.ok { f with FeatureType := ft })
    if val ≠ "" then
      let p := env.ParseValueAndFeatureType val
      if p.2 = .Invalid then
        some (.error .InvalidFeatureTypeError)
      else if p.2 = .Percentile then
        match p.1 with
        | .float64 x =>
          if F64.lt F64.one x || F64.lt x F64.zero then
            some (.error .InvalidRangeError)
          else
            build p.1 p.2
        | _ => none
      else
        build p.1 p.2
    else
      build .nil .unset

/-- `Controller.Set`. The exit code is `none` when `ParseContext` panicked. -/
def Controller.Set {σ : Type} (env : Env) (cc : Controller σ) (ctx : Context) (w : World σ) :
    Option Int × World σ :=
  match cc.ParseContext env ctx with
  | none => (none, w)
  | some (.error err) => (some 1, SayErr "parse error: %v" [.err err] w)
  | some (.ok ft) =>
    let r := callSet cc ft w
    match r.1.2 with
    | some err => (some 1, SayErr "set error: %v" [.err err] r.2)
    | none =>
      let ft := r.1.1
      let w := Say "set flag '%s'" [.str ft.ScopedKey] r.2
      let c := cc.CommitFeatures ft false w
      (some c.1, c.2)

/-- `Controller.Delete`. -/
def Controller.Delete {σ : Type} (env : Env) (cc : Controller σ) (ctx : Context) (w : World σ) :
    Int × World σ :=
  let name := (ctx.Get "name").1
  let scope := (ctx.Get "scope").1
  if name = "" then
    (1, Say "name is required" [] w)
  else
    let scope := if scope = "" then env.DefaultScope else scope
    let r := callDelete cc name scope w
    match r.1 with
    | some err => (1, SayErr "%v" [.err err] r.2)
    | none =>
      let w := Say "deleted flag %s/%s/%s" [.str cc.Config.Namespace, .str scope, .str name] r.2
      let ft : Feature := { Key := name, Scope := scope, UpdatedBy := cc.Config.Username }
      cc.CommitFeatures ft true w

/-- `Controller.List`. -/
def Controller.List {σ : Type} (env : Env) (cc : Controller σ) (ctx : Context) (w : World σ) :
    Int × World σ :=
  let pf := (ctx.Get "prefix").1
  let scope := (ctx.Get "scope").1
  let scope := if pf ≠ "" ∧ scope = "" then env.DefaultScope else scope
  let r := callList cc pf scope w
  match r.1 with
  | .error err => (1, SayErr "%v" [.err err] r.2)
  | .ok features =>
    if features.length = 0 then
      (1, Say "no feature flags found in namespace: %s" [.str (cc.Client.Namespace r.2.client)]
            { r.2 with calls := r.2.calls ++ [Call.Namespace] })
    else
      (0, { r.2 with out := r.2.out ++ [Output.DrawFeatures features] })

/-- What the Go runtime supplies to `Import`: the answer of `ioutil.ReadAll(os.Stdin)`, the
decoder `json.Unmarshal` into a `map[string]interface{}` (the entries of the decoded map,
one per key), and the order in which a `range` over that map visits its entries, which
the language leaves unspecified. -/
structure Runtime where
  ReadAllStdin : Except Error String
  Unmarshal : String → Except Error Entries
  rangeOrder : Entries → Entries

/-- The `for k, v := range kvs` loop of `Controller.Import` over the entries still to be
visited, and the `return 1` that follows it. -/
def Controller.importLoop {σ : Type} (env : Env) (cc : Controller σ) (scope : String) :
    Entries → World σ → Int × World σ
  | [], w => (1, w)
  | (k, v) :: rest, w =>
    let f := NewFeature env k v "" "" scope cc.Config.Namespace
    let r := callSet cc f w
    match r.1.2 with
    | some err => (1, SayErr "%v" [.err err] r.2)
    | none => Controller.importLoop env cc scope rest (Say "set %s to %+v" [.str k, .val v] r.2)

/-- `Controller.Import`. -/
def Controller.Import {σ : Type} (env : Env) (rt : Runtime) (cc : Controller σ) (ctx : Context)
    (w : World σ) : Int × World σ :=
  match rt.ReadAllStdin with
  | .error err => (1, SayErr "%v" [.err err] w)
  | .ok bts =>
    match rt.Unmarshal bts with
    | .error err => (1, SayErr "%v" [.err err] w)
    | .ok kvs =>
      let scope := (ctx.Get "scope").1
      let scope := if scope = "" then env.DefaultScope else scope
      Controller.importLoop env cc scope (rt.rangeOrder kvs) w

/-- What the operating system answers to `Init`: the path `config.ConfigPath()` and its
directory `path.Dir(config.ConfigPath())`, whether `os.Stat` on the path reports that it
does not exist, and the answers of `os.MkdirAll` and `ioutil.WriteFile`. The files
themselves are not part of the world. -/
structure FileSystem where
  ConfigPath : String
  ConfigDir : String
  StatIsNotExist : Bool
  MkdirAll : Option Error
  WriteFile : Option Error

/-- `cc.Client.InitRepo(create)`, recorded. -/
def callInitRepo {σ : Type} (cc : Controller σ) (create : Bool) (w : World σ) :
    Option Error × World σ :=
  let r := cc.Client.InitRepo create w.client
  (r.1, { w with client := r.2, calls := w.calls ++ [Call.InitRepo create r.1] })

/-- The second half of `Controller.Init`, from the test of `GitEnabled` on. -/
def Controller.initRepository {σ : Type} (cc : Controller σ) (ctx : Context) (w : World σ) :
    Int × World σ :=
  if !cc.Config.GitEnabled then
    (0, Say "no repository configured. skipping" [] w)
  else
    let create := ctx.Is "create"
    let r := callInitRepo cc create w
    match r.1 with
    | some err => (1, SayErr "%v" [.err err] r.2)
    | none =>
      if create then
        (0, Say "initialized new repo in %s and pushed to %s"
              [.str cc.Config.Git.RepoPath, .str cc.Config.Git.RepoURL] r.2)
      else
        (0, Say "cloned %s into %s"
              [.str cc.Config.Git.RepoURL, .str cc.Config.Git.RepoPath] r.2)

/-- `Controller.Init`: the scaffolding of the configuration when it does not exist, then
the repository. -/
def Controller.Init {σ : Type} (fs : FileSystem) (cc : Controller σ) (ctx : Context)
    (w : World σ) : Int × World σ :=
  if fs.StatIsNotExist then
    let w := Say "creating %s" [.str fs.ConfigDir] w
    match fs.MkdirAll with
    | some err => (1, SayErr "could not create config directory: %v" [.err err] w)
    | none =>
      let w := Say "%s not found. creating example config" [.str fs.ConfigPath] w
      match fs.WriteFile with
      | some err => (1, SayErr "could not write config.hcl %v" [.err err] w)
      | none => cc.initRepository ctx w
  else
    cc.initRepository ctx w

/-! ## Vocabulary of the statements -/

/-- The feature a `Set` call submits, if the call is a `Set`. -/
def Call.setArg : Call → Option Feature
  | .Set ft _ => some ft
  | _ => none

/-- The collaborator calls of the `range` loop of `Import`, entry by entry, from the
collaborator state `s`: one `Set` per entry, stopping after the first that fails. -/
def importCalls {σ : Type} (env : Env) (cc : Controller σ) (scope : String) :
    Entries → σ → Trace
  | [], _ => []
  | (k, v) :: rest, s =>
    let f := NewFeature env k v "" "" scope cc.Config.Namespace
    let r := cc.Client.Set f s
    Call.Set f r.1.2 ::
      (match r.1.2 with
       | some _ => []
       | none => importCalls env cc scope rest r.2)

/-- A call of one of the three stages of the commit pipeline. -/
def Call.isPipeline : Call → Bool
  | .Commit _ _ _ => true
  | .UpdateCurrentSha _ _ => true
  | .Push _ => true
  | _ => false

/-- The key a `Set` call submits, if the call is a `Set`. -/
def Call.setKey : Call → Option String
  | .Set ft _ => some ft.Key
  | _ => none

/-- The answer of a call was an error. -/
def Call.failed : Call → Bool
  | .List _ _ e => e.isSome
  | .Set _ e => e.isSome
  | .Delete _ _ e => e.isSome
  | .Commit _ _ e => e.isSome
  | .UpdateCurrentSha _ e => e.isSome
  | .Push e => e.isSome
  | .InitRepo _ e => e.isSome
  | .Namespace => false

/-- The output hands the error `e` to the printer, or prints its text as it stands. -/
def Output.reports (e : Error) : Output → Bool
  | .Say format args => format == e.text || args.contains (.err e) || args.contains (.str e.text)
  | .SayErr format args =>
    format == e.text || args.contains (.err e) || args.contains (.str e.text)
  | .DrawFeatures _ => false

/-- The calls a command made: those of the world it ended in, after those of the world it
started from. -/
def newCalls {σ : Type} (w0 w1 : World σ) : Trace :=
  w1.calls.drop w0.calls.length

/-! ## Test doubles -/

/-- A collaborator whose state counts the calls made to it and whose answers are fixed:
`Set` fails on the keys listed in `badKeys`, the other methods answer as given. -/
def scripted (badKeys : List String) (deleteErr commitErr shaErr pushErr : Option Error) :
    ClientIFace Nat where
  List := fun _ _ n => (.ok [], n + 1)
  Set := fun ft n => ((ft, if ft.Key ∈ badKeys then some (.other "set failed") else none), n + 1)
  Delete := fun _ _ n => (deleteErr, n + 1)
  Commit := fun _ _ n => (commitErr, n + 1)
  UpdateCurrentSha := fun n => (("sha", shaErr), n + 1)
  Push := fun n => (pushErr, n + 1)
  InitRepo := fun _ n => (none, n + 1)
  Namespace := fun _ => "ns"

/-- A command line made of the given variable flags. -/
def flags (vars : List (String × String)) : Context where
  Variable := fun k => vars.lookup k
  NonVariable := fun _ => false

/-- An empty world around a collaborator that has seen no call. -/
def world0 : World Nat := { client := 0, calls := [], out := [] }

/-- The `models` package with the default scope `default` and a classifier that knows a
few literals. -/
def env0 : Env where
  DefaultScope := "default"
  ParseValueAndFeatureType := fun s =>
    if s = "true" then (.bool true, .Boolean)
    else if s = "0.25" then (.float64 (.finite (1 / 4)), .Percentile)
    else if s = "1.5" then (.float64 (.finite (3 / 2)), .Percentile)
    else if s = "-1" then (.float64 (.finite (-1)), .Percentile)
    else (.nil, .Invalid)

/-- The scripted collaborator with `InitRepo` answering as given. -/
def scriptedInit (initErr : Option Error) : ClientIFace Nat :=
  { scripted [] none none none none with InitRepo := fun _ n => (initErr, n + 1) }

/-- A controller over `scriptedInit`, version control switched as given. -/
def initController (git : Bool) (initErr : Option Error) : Controller Nat where
  Config := { Namespace := "ns", Username := "alice", GitEnabled := git, PushEnabled := false }
  Client := scriptedInit initErr

/-- The command line `init -create`. -/
def createFlag : Context where
  Variable := fun _ => none
  NonVariable := fun k => k == "create"

/-- The configuration file is there. -/
def fsPresent : FileSystem where
  ConfigPath := "/etc/dcdr/config.hcl"
  ConfigDir := "/etc/dcdr"
  StatIsNotExist := false
  MkdirAll := none
  WriteFile := none

/-- The configuration file is not there and scaffolding it succeeds. -/
def fsScaffold : FileSystem where
  ConfigPath := "/etc/dcdr/config.hcl"
  ConfigDir := "/etc/dcdr"
  StatIsNotExist := true
  MkdirAll := none
  WriteFile := none

/-- A controller over the scripted collaborator: version control and push switched as
given, the stages answering as given. -/
def scriptedController (git push : Bool) (badKeys : List String)
    (deleteErr commitErr shaErr pushErr : Option Error) : Controller Nat where
  Config := { Namespace := "ns", Username := "alice", GitEnabled := git, PushEnabled := push }
  Client := scripted badKeys deleteErr commitErr shaErr pushErr

/-- A feature to commit. -/
def ft0 : Feature := { Key := "flag", Scope := "default", Value := .bool true }

/-- One run of `import` on the object with the keys `a`, `b`, `c` in that order: the decoder
answers its three entries, and the `range` over the decoded map visits them starting from
the third. -/
def rt0 : Runtime where
  ReadAllStdin := .ok "\x7b\"a\":1,\"b\":true,\"c\":\"bad\"\x7d"
  Unmarshal := fun _ =>
    .ok [("a", .float64 (.finite 1)), ("b", .bool true), ("c", .string "bad")]
  rangeOrder := fun kvs => kvs.rotate 2

/-! ## The commit pipeline -/

/-- C1. With version control enabled: if `Commit` fails, `CommitFeatures` returns 1 and
`Commit` is the only collaborator call (neither `UpdateCurrentSha` nor `Push` is made); if
`Commit` succeeds and `UpdateCurrentSha` fails, it returns 1 and the collaborator calls are
`Commit` then `UpdateCurrentSha` and nothing else (no `Push`, nothing undoing the
commit), the collaborator being left as `UpdateCurrentSha` left it. -/
theorem CommitFeatures_stage_failure {σ : Type} (cc : Controller σ) (ft : Feature)
    (deleted : Bool) (w : World σ) (hgit : cc.Config.GitEnabled = true) :
    (∀ e, (cc.Client.Commit ft deleted w.client).1 = some e →
      (cc.CommitFeatures ft deleted w).1 = 1 ∧
      (cc.CommitFeatures ft deleted w).2.calls = w.calls ++ [Call.Commit ft deleted (some e)] ∧
      (cc.CommitFeatures ft deleted w).2.client = (cc.Client.Commit ft deleted w.client).2) ∧
    (∀ e, (cc.Client.Commit ft deleted w.client).1 = none →
      (cc.Client.UpdateCurrentSha (cc.Client.Commit ft deleted w.client).2).1.2 = some e →
      (cc.CommitFeatures ft deleted w).1 = 1 ∧
      (cc.CommitFeatures ft deleted w).2.calls = w.calls ++
        [Call.Commit ft deleted none,
         Call.UpdateCurrentSha
           (cc.Client.UpdateCurrentSha (cc.Client.Commit ft deleted w.client).2).1.1 (some e)] ∧
      (cc.CommitFeatures ft deleted w).2.client =
        (cc.Client.UpdateCurrentSha (cc.Client.Commit ft deleted w.client).2).2) := by
  refine ⟨fun e hc => ?_, fun e hc hu => ?_⟩
  · simp [Controller.CommitFeatures, hgit, callCommit, Say, SayErr, hc]
  · simp [Controller.CommitFeatures, hgit, callCommit, callUpdateCurrentSha, Say, SayErr, hc, hu]

/-- Witness of C1: a collaborator whose `Commit` fails, and one whose `Commit` succeeds and
whose `UpdateCurrentSha` fails. -/
theorem CommitFeatures_stage_failure_witness :
    (((scriptedController true true [] none (some (.other "no commit")) none none).CommitFeatures
        ft0 false world0).1 = 1 ∧
      ((scriptedController true true [] none (some (.other "no commit")) none none).CommitFeatures
        ft0 false world0).2.calls =
        world0.calls ++ [Call.Commit ft0 false (some (.other "no commit"))] ∧
      ((scriptedController true true [] none (some (.other "no commit")) none none).CommitFeatures
        ft0 false world0).2.client = 1) ∧
    (((scriptedController true true [] none none (some (.other "no sha")) none).CommitFeatures
        ft0 true world0).1 = 1 ∧
      ((scriptedController true true [] none none (some (.other "no sha")) none).CommitFeatures
        ft0 true world0).2.calls =
        world0.calls ++ [Call.Commit ft0 true none,
          Call.UpdateCurrentSha "sha" (some (.other "no sha"))] ∧
      ((scriptedController true true [] none none (some (.other "no sha")) none).CommitFeatures
        ft0 true world0).2.client = 2) :=
  ⟨(CommitFeatures_stage_failure
      (scriptedController true true [] none (some (.other "no commit")) none none)
      ft0 false world0 rfl).1 (.other "no commit") rfl,
   (CommitFeatures_stage_failure
      (scriptedController true true [] none none (some (.other "no sha")) none)
      ft0 true world0 rfl).2 (.other "no sha") rfl rfl⟩

/-- With version control disabled the pipeline does nothing at all. -/
theorem CommitFeatures_disabled {σ : Type} (cc : Controller σ) (ft : Feature) (deleted : Bool)
    (w : World σ) (hgit : cc.Config.GitEnabled = false) :
    cc.CommitFeatures ft deleted w = (0, w) := by
  simp [Controller.CommitFeatures, hgit]

/-- The pipeline only ever adds calls after those already made. -/
theorem CommitFeatures_calls_append {σ : Type} (cc : Controller σ) (ft : Feature)
    (deleted : Bool) (w : World σ) :
    ∃ new, (cc.CommitFeatures ft deleted w).2.calls = w.calls ++ new := by
  unfold Controller.CommitFeatures
  by_cases hgit : cc.Config.GitEnabled = true
  · simp only [hgit, if_true]
    rcases hc : (callCommit cc ft deleted (Say "committing changes" [] w)).1 with _ | e
    · simp only []
      rcases hu : (callUpdateCurrentSha cc
          (callCommit cc ft deleted (Say "committing changes" [] w)).2).1.2 with _ | e
      · simp only []
        by_cases hpe : cc.Config.PushEnabled = true
        · simp only [hpe, if_true]
          rcases hp : (callPush cc (Say "pushing commit to origin" []
              (Say "set info/current_sha: %s"
                [.str (callUpdateCurrentSha cc
                  (callCommit cc ft deleted (Say "committing changes" [] w)).2).1.1]
                (callUpdateCurrentSha cc
                  (callCommit cc ft deleted (Say "committing changes" [] w)).2).2))).1 with _ | e
          · exact ⟨_, by simp [callCommit, callUpdateCurrentSha, callPush, Say]; rfl⟩
          · exact ⟨_, by simp [callCommit, callUpdateCurrentSha, callPush, Say, SayErr]; rfl⟩
        · simp only [hpe]
          exact ⟨_, by simp [callCommit, callUpdateCurrentSha, Say]; rfl⟩
      · exact ⟨_, by simp [callCommit, callUpdateCurrentSha, Say, SayErr]; rfl⟩
    · exact ⟨_, by simp [callCommit, Say, SayErr]; rfl⟩
  · exact ⟨[], by simp [hgit]⟩

/-- With version control enabled the first call of the pipeline is `Commit`, on the feature
and flag it was entered with. -/
theorem CommitFeatures_calls_enabled {σ : Type} (cc : Controller σ) (ft : Feature)
    (deleted : Bool) (w : World σ) (hgit : cc.Config.GitEnabled = true) :
    ∃ rest, (cc.CommitFeatures ft deleted w).2.calls =
      w.calls ++ Call.Commit ft deleted (cc.Client.Commit ft deleted w.client).1 :: rest := by
  unfold Controller.CommitFeatures
  simp only [hgit, if_true]
  rcases hc : (callCommit cc ft deleted (Say "committing changes" [] w)).1 with _ | e
  · simp only []
    rcases hu : (callUpdateCurrentSha cc
        (callCommit cc ft deleted (Say "committing changes" [] w)).2).1.2 with _ | e
    · simp only []
      by_cases hpe : cc.Config.PushEnabled = true
      · simp only [hpe, if_true]
        rcases hp : (callPush cc (Say "pushing commit to origin" []
            (Say "set info/current_sha: %s"
              [.str (callUpdateCurrentSha cc
                (callCommit cc ft deleted (Say "committing changes" [] w)).2).1.1]
              (callUpdateCurrentSha cc
                (callCommit cc ft deleted (Say "committing changes" [] w)).2).2))).1 with _ | e
        · exact ⟨_, by simp [callCommit, callUpdateCurrentSha, callPush, Say]; rfl⟩
        · exact ⟨_, by simp [callCommit, callUpdateCurrentSha, callPush, Say, SayErr]; rfl⟩
      · simp only [hpe]
        exact ⟨_, by simp [callCommit, callUpdateCurrentSha, Say]; rfl⟩
    · exact ⟨_, by simp [callCommit, callUpdateCurrentSha, Say, SayErr]; rfl⟩
  · exact ⟨[], by simp [callCommit, Say, SayErr]⟩

/-- C2. With version control disabled, `CommitFeatures` returns 0 and leaves the
collaborator, the calls made and the output untouched, and none of the collaborator calls
made by `Set` or by `Delete` is a `Commit`, an `UpdateCurrentSha` or a `Push`. -/
theorem no_pipeline_call_when_disabled {σ : Type} (env : Env) (cc : Controller σ)
    (ctx : Context) (ft : Feature) (deleted : Bool) (w : World σ)
    (hgit : cc.Config.GitEnabled = false) :
    cc.CommitFeatures ft deleted w = (0, w) ∧
    (∃ new, (cc.Set env ctx w).2.calls = w.calls ++ new ∧ ∀ c ∈ new, c.isPipeline = false) ∧
    (∃ new, (cc.Delete env ctx w).2.calls = w.calls ++ new ∧
      ∀ c ∈ new, c.isPipeline = false) := by
  refine ⟨CommitFeatures_disabled cc ft deleted w hgit, ?_, ?_⟩
  · unfold Controller.Set
    rcases hp : cc.ParseContext env ctx with _ | (err | f)
    · exact ⟨[], by simp⟩
    · exact ⟨[], by simp [SayErr]⟩
    · rcases hs : (cc.Client.Set f w.client).1.2 with _ | e
      · refine ⟨[Call.Set f none], ?_, by simp [Call.isPipeline]⟩
        simp [callSet, hs, CommitFeatures_disabled _ _ _ _ hgit, Say]
      · refine ⟨[Call.Set f (some e)], ?_, by simp [Call.isPipeline]⟩
        simp [callSet, hs, SayErr]
  · unfold Controller.Delete
    by_cases hn : (ctx.Get "name").1 = ""
    · exact ⟨[], by simp [hn, Say]⟩
    · rcases hd : (cc.Client.Delete (ctx.Get "name").1
          (if (ctx.Get "scope").1 = "" then env.DefaultScope else (ctx.Get "scope").1)
          w.client).1 with _ | e
      · refine ⟨[Call.Delete (ctx.Get "name").1
          (if (ctx.Get "scope").1 = "" then env.DefaultScope else (ctx.Get "scope").1) none],
          ?_, by simp [Call.isPipeline]⟩
        simp [hn, callDelete, hd, CommitFeatures_disabled _ _ _ _ hgit, Say]
      · refine ⟨[Call.Delete (ctx.Get "name").1
          (if (ctx.Get "scope").1 = "" then env.DefaultScope else (ctx.Get "scope").1) (some e)],
          ?_, by simp [Call.isPipeline]⟩
        simp [hn, callDelete, hd, SayErr]

/-- Witness of C2: `set -name flag -value true` and `delete -name flag` against a
collaborator whose every method succeeds, version control disabled. -/
theorem no_pipeline_call_when_disabled_witness :
    (scriptedController false true [] none none none none).CommitFeatures ft0 false world0
      = (0, world0) ∧
    (∃ new, ((scriptedController false true [] none none none none).Set env0
        (flags [("name", "flag"), ("value", "true")]) world0).2.calls = world0.calls ++ new ∧
      ∀ c ∈ new, c.isPipeline = false) ∧
    (∃ new, ((scriptedController false true [] none none none none).Delete env0
        (flags [("name", "flag"), ("value", "true")]) world0).2.calls = world0.calls ++ new ∧
      ∀ c ∈ new, c.isPipeline = false) :=
  no_pipeline_call_when_disabled env0 (scriptedController false true [] none none none none)
    (flags [("name", "flag"), ("value", "true")]) ft0 false world0 rfl

/-- C3. With version control enabled and every stage that runs succeeding,
`CommitFeatures ft deleted` returns 0 and its collaborator calls are `Commit ft deleted`,
then `UpdateCurrentSha`, then one `Push` when push is enabled and nothing more when it is
not. -/
theorem CommitFeatures_success {σ : Type} (cc : Controller σ) (ft : Feature) (deleted : Bool)
    (w : World σ) (hgit : cc.Config.GitEnabled = true)
    (hc : (cc.Client.Commit ft deleted w.client).1 = none)
    (hu : (cc.Client.UpdateCurrentSha (cc.Client.Commit ft deleted w.client).2).1.2 = none)
    (hp : cc.Config.PushEnabled = true →
      (cc.Client.Push
        (cc.Client.UpdateCurrentSha (cc.Client.Commit ft deleted w.client).2).2).1 = none) :
    (cc.CommitFeatures ft deleted w).1 = 0 ∧
    (cc.CommitFeatures ft deleted w).2.calls = w.calls ++
      ([Call.Commit ft deleted none,
        Call.UpdateCurrentSha
          (cc.Client.UpdateCurrentSha (cc.Client.Commit ft deleted w.client).2).1.1 none] ++
       (if cc.Config.PushEnabled = true then [Call.Push none] else [])) := by
  by_cases hpe : cc.Config.PushEnabled = true
  · have hp' := hp hpe
    simp [Controller.CommitFeatures, hgit, callCommit, callUpdateCurrentSha, callPush, Say,
      SayErr, hc, hu, hpe, hp']
  · simp [Controller.CommitFeatures, hgit, callCommit, callUpdateCurrentSha, Say, hc, hu, hpe]

/-- Witness of C3: every stage succeeds, push enabled. -/
theorem CommitFeatures_success_witness :
    ((scriptedController true true [] none none none none).CommitFeatures ft0 false world0).1 = 0 ∧
    ((scriptedController true true [] none none none none).CommitFeatures ft0 false world0).2.calls
      = world0.calls ++
        ([Call.Commit ft0 false none, Call.UpdateCurrentSha "sha" none] ++
         (if (scriptedController true true [] none none none none).Config.PushEnabled = true
          then [Call.Push none] else [])) :=
  CommitFeatures_success (scriptedController true true [] none none none none) ft0 false world0
    rfl rfl rfl (fun _ => rfl)

/-! ## Validation in `Set` -/

/-- C4. A `Set` with an empty name: `ParseContext` answers `NameRequiredError` and no
feature, and `Set` returns 1 having only reported the parse error: no collaborator call is
made and the collaborator is left as it was. -/
theorem Set_empty_name {σ : Type} (env : Env) (cc : Controller σ) (ctx : Context) (w : World σ)
    (hn : (ctx.Get "name").1 = "") :
    cc.ParseContext env ctx = some (.error .NameRequiredError) ∧
    cc.Set env ctx w = (some 1, SayErr "parse error: %v" [.err .NameRequiredError] w) ∧
    (cc.Set env ctx w).2.calls = w.calls ∧
    (cc.Set env ctx w).2.client = w.client := by
  have hp : cc.ParseContext env ctx = some (.error .NameRequiredError) := by
    simp [Controller.ParseContext, hn]
  simp [Controller.Set, hp, SayErr]

/-- Witness of C4: `set -value true -comment c -scope s` with no name, against a
collaborator that would accept everything. -/
theorem Set_empty_name_witness :
    (scriptedController true true [] none none none none).ParseContext env0
        (flags [("value", "true"), ("comment", "c"), ("scope", "s")])
      = some (.error .NameRequiredError) ∧
    (scriptedController true true [] none none none none).Set env0
        (flags [("value", "true"), ("comment", "c"), ("scope", "s")]) world0
      = (some 1, SayErr "parse error: %v" [.err .NameRequiredError] world0) ∧
    ((scriptedController true true [] none none none none).Set env0
        (flags [("value", "true"), ("comment", "c"), ("scope", "s")]) world0).2.calls
      = world0.calls ∧
    ((scriptedController true true [] none none none none).Set env0
        (flags [("value", "true"), ("comment", "c"), ("scope", "s")]) world0).2.client
      = world0.client :=
  Set_empty_name env0 (scriptedController true true [] none none none none)
    (flags [("value", "true"), ("comment", "c"), ("scope", "s")]) world0 rfl

/-- C5. A `Set` with a non-empty name and a (non-empty, hence classified) value that
`ParseValueAndFeatureType` classifies as `Percentile` with the number `v`: if
`0.0 <= v <= 1.0`, `ParseContext` succeeds with a feature of type `Percentile` carrying `v`
under the given name; if `v < 0.0` or `v > 1.0`, `ParseContext` answers
`InvalidRangeError`, and `Set` returns 1 having only reported it, with no collaborator
call. -/
theorem Set_percentile_range {σ : Type} (env : Env) (cc : Controller σ) (ctx : Context)
    (w : World σ) (v : F64)
    (hn : (ctx.Get "name").1 ≠ "") (hv : (ctx.Get "value").1 ≠ "")
    (hp : env.ParseValueAndFeatureType (ctx.Get "value").1 = (.float64 v, .Percentile)) :
    (F64.le F64.zero v = true ∧ F64.le v F64.one = true →
      ∃ f, cc.ParseContext env ctx = some (.ok f) ∧ f.FeatureType = .Percentile ∧
        f.Value = .float64 v ∧ f.Key = (ctx.Get "name").1) ∧
    (F64.lt v F64.zero = true ∨ F64.lt F64.one v = true →
      cc.ParseContext env ctx = some (.error .InvalidRangeError) ∧
      cc.Set env ctx w = (some 1, SayErr "parse error: %v" [.err .InvalidRangeError] w) ∧
      (cc.Set env ctx w).2.calls = w.calls ∧
      (cc.Set env ctx w).2.client = w.client) := by
  constructor
  · rintro ⟨h0, h1⟩
    have hr : (F64.lt F64.one v || F64.lt v F64.zero) = false := by
      cases v <;> simp_all [F64.le, F64.lt, F64.one, F64.zero]
    simp [Controller.ParseContext, hn, hv, hp, hr, NewFeature]
  · intro h
    have hr : (F64.lt F64.one v || F64.lt v F64.zero) = true := by
      rcases h with h | h <;> simp [h]
    have hpc : cc.ParseContext env ctx = some (.error .InvalidRangeError) := by
      simp [Controller.ParseContext, hn, hv, hp, hr]
    simp [Controller.Set, hpc, SayErr]

/-- Witness of C5: `set -name rollout -value 0.25` is accepted, `set -name rollout
-value 1.5` is refused with `InvalidRangeError` before any collaborator call. -/
theorem Set_percentile_range_witness :
    (∃ f, (scriptedController true true [] none none none none).ParseContext env0
          (flags [("name", "rollout"), ("value", "0.25")]) = some (.ok f) ∧
        f.FeatureType = .Percentile ∧ f.Value = .float64 (.finite (1 / 4)) ∧
        f.Key = ((flags [("name", "rollout"), ("value", "0.25")]).Get "name").1) ∧
    ((scriptedController true true [] none none none none).ParseContext env0
          (flags [("name", "rollout"), ("value", "1.5")]) = some (.error .InvalidRangeError) ∧
      (scriptedController true true [] none none none none).Set env0
          (flags [("name", "rollout"), ("value", "1.5")]) world0
        = (some 1, SayErr "parse error: %v" [.err .InvalidRangeError] world0) ∧
      ((scriptedController true true [] none none none none).Set env0
          (flags [("name", "rollout"), ("value", "1.5")]) world0).2.calls = world0.calls ∧
      ((scriptedController true true [] none none none none).Set env0
          (flags [("name", "rollout"), ("value", "1.5")]) world0).2.client = world0.client) :=
  ⟨(Set_percentile_range env0 (scriptedController true true [] none none none none)
      (flags [("name", "rollout"), ("value", "0.25")]) world0 (.finite (1 / 4))
      (by decide) (by decide) (by rfl)).1
      ⟨by simp [F64.le, F64.zero], by norm_num [F64.le, F64.one]⟩,
   (Set_percentile_range env0 (scriptedController true true [] none none none none)
      (flags [("name", "rollout"), ("value", "1.5")]) world0 (.finite (3 / 2))
      (by decide) (by decide) (by rfl)).2
      (Or.inr (by norm_num [F64.lt, F64.one]))⟩

/-- C6, the claim fails: `set -name flag` with an empty value, against a collaborator that
accepts everything. `ParseContext` answers a feature and no error, `Set` returns 0 and the
feature is submitted to the collaborator's `Set`. -/
theorem Set_empty_value_counterexample :
    ((scriptedController false false [] none none none none).ParseContext env0
        (flags [("name", "flag"), ("value", "")])
      = some (.ok { Key := "flag", Scope := "default", Namespace := "ns", UpdatedBy := "alice" }) ∧
     ((scriptedController false false [] none none none none).Set env0
        (flags [("name", "flag"), ("value", "")]) world0).1 = some 0 ∧
     ((scriptedController false false [] none none none none).Set env0
        (flags [("name", "flag"), ("value", "")]) world0).2.calls
      = [Call.Set { Key := "flag", Scope := "default", Namespace := "ns", UpdatedBy := "alice" }
          none]) ∧
    ¬ ((∃ e, (scriptedController false false [] none none none none).ParseContext env0
          (flags [("name", "flag"), ("value", "")]) = some (.error e)) ∧
       ((scriptedController false false [] none none none none).Set env0
          (flags [("name", "flag"), ("value", "")]) world0).1 = some 1 ∧
       ∀ c ∈ ((scriptedController false false [] none none none none).Set env0
          (flags [("name", "flag"), ("value", "")]) world0).2.calls, c.setKey = none) := by
  refine ⟨⟨rfl, by decide, by decide⟩, ?_⟩
  rintro ⟨-, h, -⟩
  revert h
  decide

/-- C6 as amended. A `Set` with a non-empty name and an empty value: `ParseContext` skips
classification and range check and answers, with no error, a feature with the given name,
comment and scope (defaulted when blank), the configured user and namespace, no value and
no feature type; the first collaborator call of `Set` submits that feature to the
collaborator's `Set`. -/
theorem Set_empty_value {σ : Type} (env : Env) (cc : Controller σ) (ctx : Context) (w : World σ)
    (hn : (ctx.Get "name").1 ≠ "") (hv : (ctx.Get "value").1 = "") :
    cc.ParseContext env ctx = some (.ok
      { Key := (ctx.Get "name").1
        Value := .nil
        FeatureType := .unset
        Comment := (ctx.Get "comment").1
        UpdatedBy := cc.Config.Username
        Scope := if (ctx.Get "scope").1 = "" then env.DefaultScope else (ctx.Get "scope").1
        Namespace := cc.Config.Namespace }) ∧
    ∃ err rest, (cc.Set env ctx w).2.calls = w.calls ++
      Call.Set
        { Key := (ctx.Get "name").1
          Value := .nil
          FeatureType := .unset
          Comment := (ctx.Get "comment").1
          UpdatedBy := cc.Config.Username
          Scope := if (ctx.Get "scope").1 = "" then env.DefaultScope else (ctx.Get "scope").1
          Namespace := cc.Config.Namespace } err :: rest := by
  have hp : cc.ParseContext env ctx = some (.ok
      { Key := (ctx.Get "name").1
        Value := .nil
        FeatureType := .unset
        Comment := (ctx.Get "comment").1
        UpdatedBy := cc.Config.Username
        Scope := if (ctx.Get "scope").1 = "" then env.DefaultScope else (ctx.Get "scope").1
        Namespace := cc.Config.Namespace }) := by
    simp [Controller.ParseContext, hn, hv, NewFeature]
  refine ⟨hp, ?_⟩
  simp only [Controller.Set, hp]
  rcases hs : (callSet cc _ w).1.2 with _ | e
  · simp only []
    obtain ⟨new, hnew⟩ := CommitFeatures_calls_append cc (callSet cc _ w).1.1 false
      (Say "set flag '%s'" [.str (callSet cc _ w).1.1.ScopedKey] (callSet cc _ w).2)
    exact ⟨_, new, by rw [hnew]; simp [callSet, Say]; rfl⟩
  · exact ⟨_, [], by simp [callSet, SayErr]; rfl⟩

/-- Witness of C6 as amended: `set -name flag -comment why` with no value. -/
theorem Set_empty_value_witness :
    (scriptedController true true [] none none none none).ParseContext env0
        (flags [("name", "flag"), ("comment", "why")]) = some (.ok
      { Key := ((flags [("name", "flag"), ("comment", "why")]).Get "name").1
        Value := .nil
        FeatureType := .unset
        Comment := ((flags [("name", "flag"), ("comment", "why")]).Get "comment").1
        UpdatedBy := (scriptedController true true [] none none none none).Config.Username
        Scope := if ((flags [("name", "flag"), ("comment", "why")]).Get "scope").1 = ""
          then env0.DefaultScope
          else ((flags [("name", "flag"), ("comment", "why")]).Get "scope").1
        Namespace := (scriptedController true true [] none none none none).Config.Namespace }) ∧
    ∃ err rest, ((scriptedController true true [] none none none none).Set env0
        (flags [("name", "flag"), ("comment", "why")]) world0).2.calls = world0.calls ++
      Call.Set
        { Key := ((flags [("name", "flag"), ("comment", "why")]).Get "name").1
          Value := .nil
          FeatureType := .unset
          Comment := ((flags [("name", "flag"), ("comment", "why")]).Get "comment").1
          UpdatedBy := (scriptedController true true [] none none none none).Config.Username
          Scope := if ((flags [("name", "flag"), ("comment", "why")]).Get "scope").1 = ""
            then env0.DefaultScope
            else ((flags [("name", "flag"), ("comment", "why")]).Get "scope").1
          Namespace := (scriptedController true true [] none none none none).Config.Namespace }
        err :: rest :=
  Set_empty_value env0 (scriptedController true true [] none none none none)
    (flags [("name", "flag"), ("comment", "why")]) world0 (by decide) rfl

/-! ## Delete -/

/-- C7. `Delete` with a blank scope and `Delete` with the scope set to `DefaultScope`, for
the same name, configuration and collaborator, end in the same exit code and the same
world (same collaborator calls with the same arguments and answers, same output, same
collaborator state); when the name is not empty the first of these calls is
`Delete(name, DefaultScope)`. -/
theorem Delete_blank_scope_is_default {σ : Type} (env : Env) (cc : Controller σ)
    (ctx1 ctx2 : Context) (w : World σ)
    (hname : (ctx1.Get "name").1 = (ctx2.Get "name").1)
    (h1 : (ctx1.Get "scope").1 = "") (h2 : (ctx2.Get "scope").1 = env.DefaultScope) :
    cc.Delete env ctx1 w = cc.Delete env ctx2 w ∧
    ((ctx1.Get "name").1 ≠ "" → ∃ err rest,
      (cc.Delete env ctx1 w).2.calls =
        w.calls ++ Call.Delete (ctx1.Get "name").1 env.DefaultScope err :: rest ∧
      (cc.Delete env ctx2 w).2.calls =
        w.calls ++ Call.Delete (ctx1.Get "name").1 env.DefaultScope err :: rest) := by
  have heq : cc.Delete env ctx1 w = cc.Delete env ctx2 w := by
    simp [Controller.Delete, hname, h1, h2]
  refine ⟨heq, fun hn => ?_⟩
  rw [← heq]
  simp only [Controller.Delete, hn, h1, if_true, if_false]
  rcases hd : (callDelete cc (ctx1.Get "name").1 env.DefaultScope w).1 with _ | e
  · simp only []
    obtain ⟨new, hnew⟩ := CommitFeatures_calls_append cc
      { Key := (ctx1.Get "name").1, Scope := env.DefaultScope, UpdatedBy := cc.Config.Username }
      true
      (Say "deleted flag %s/%s/%s"
        [.str cc.Config.Namespace, .str env.DefaultScope, .str (ctx1.Get "name").1]
        (callDelete cc (ctx1.Get "name").1 env.DefaultScope w).2)
    exact ⟨_, new, by rw [hnew]; simp [callDelete, Say]; rfl, by
      rw [hnew]; simp [callDelete, Say]⟩
  · exact ⟨_, [], by simp [callDelete, SayErr]; rfl, by simp [callDelete, SayErr]⟩

/-- Witness of C7: `delete -name flag` and `delete -name flag -scope default`, version
control and push enabled, every collaborator call succeeding. -/
theorem Delete_blank_scope_is_default_witness :
    (scriptedController true true [] none none none none).Delete env0
        (flags [("name", "flag")]) world0
      = (scriptedController true true [] none none none none).Delete env0
        (flags [("name", "flag"), ("scope", "default")]) world0 ∧
    (((flags [("name", "flag")]).Get "name").1 ≠ "" → ∃ err rest,
      ((scriptedController true true [] none none none none).Delete env0
          (flags [("name", "flag")]) world0).2.calls =
        world0.calls ++
          Call.Delete ((flags [("name", "flag")]).Get "name").1 env0.DefaultScope err :: rest ∧
      ((scriptedController true true [] none none none none).Delete env0
          (flags [("name", "flag"), ("scope", "default")]) world0).2.calls =
        world0.calls ++
          Call.Delete ((flags [("name", "flag")]).Get "name").1 env0.DefaultScope err :: rest) :=
  Delete_blank_scope_is_default env0 (scriptedController true true [] none none none none)
    (flags [("name", "flag")]) (flags [("name", "flag"), ("scope", "default")]) world0
    rfl rfl rfl

/-- C8, the claim fails: `delete -scope prod` with no name. `Delete` returns 1 and makes no
collaborator call, but what it prints is the plain message `name is required` through
`printer.Say`: nothing in the output hands over `NameRequiredError` or carries its text
`-name is required`. -/
theorem Delete_empty_name_counterexample :
    (scriptedController true true [] none none none none).Delete env0
        (flags [("scope", "prod")]) world0
      = (1, { client := 0, calls := [], out := [Output.Say "name is required" []] }) ∧
    Error.text .NameRequiredError = "-name is required" ∧
    ¬ ∃ o ∈ ((scriptedController true true [] none none none none).Delete env0
        (flags [("scope", "prod")]) world0).2.out, o.reports .NameRequiredError = true := by
  refine ⟨rfl, rfl, ?_⟩
  decide

/-- C8 as amended. A `Delete` with an empty name returns 1 after printing the plain
message `name is required` through `printer.Say` and nothing else, and makes no
collaborator call: calls and collaborator are as before. -/
theorem Delete_empty_name {σ : Type} (env : Env) (cc : Controller σ) (ctx : Context)
    (w : World σ) (hn : (ctx.Get "name").1 = "") :
    (cc.Delete env ctx w).1 = 1 ∧
    (cc.Delete env ctx w).2.out = w.out ++ [Output.Say "name is required" []] ∧
    (cc.Delete env ctx w).2.calls = w.calls ∧
    (cc.Delete env ctx w).2.client = w.client := by
  simp [Controller.Delete, hn, Say]

/-- Witness of C8 as amended: `delete -scope prod` with no name. -/
theorem Delete_empty_name_witness :
    ((scriptedController true true [] none none none none).Delete env0
        (flags [("scope", "prod")]) world0).1 = 1 ∧
    ((scriptedController true true [] none none none none).Delete env0
        (flags [("scope", "prod")]) world0).2.out
      = world0.out ++ [Output.Say "name is required" []] ∧
    ((scriptedController true true [] none none none none).Delete env0
        (flags [("scope", "prod")]) world0).2.calls = world0.calls ∧
    ((scriptedController true true [] none none none none).Delete env0
        (flags [("scope", "prod")]) world0).2.client = world0.client :=
  Delete_empty_name env0 (scriptedController true true [] none none none none)
    (flags [("scope", "prod")]) world0 rfl

/-- C9. A `Delete` with a non-empty name `name` and effective scope `scope` (the given
one, or `DefaultScope` when blank) whose collaborator `Delete` succeeds: the result of
`Delete` is the result of the commit pipeline entered with `deleted = true` on the
tombstone, whose key is `name`, scope is `scope`, actor is the configured user name and
whose value, comment and feature type are unset. So the exit code is the one of the
pipeline; with version control enabled the call after `Delete(name, scope)` is
`Commit(tombstone, true)`, with version control disabled there is no further call and the
exit code is 0. -/
theorem Delete_commits_tombstone {σ : Type} (env : Env) (cc : Controller σ) (ctx : Context)
    (w : World σ) (name scope : String)
    (hname : (ctx.Get "name").1 = name) (hn : name ≠ "")
    (hscope : (if (ctx.Get "scope").1 = "" then env.DefaultScope else (ctx.Get "scope").1)
      = scope)
    (hd : (cc.Client.Delete name scope w.client).1 = none) :
    cc.Delete env ctx w =
      cc.CommitFeatures
        { Key := name, Scope := scope, UpdatedBy := cc.Config.Username, Value := .nil,
          Comment := "", FeatureType := .unset, Namespace := "" }
        true
        (Say "deleted flag %s/%s/%s" [.str cc.Config.Namespace, .str scope, .str name]
          (callDelete cc name scope w).2) ∧
    (cc.Config.GitEnabled = true → ∃ err rest,
      (cc.Delete env ctx w).2.calls = w.calls ++
        Call.Delete name scope none ::
        Call.Commit
          { Key := name, Scope := scope, UpdatedBy := cc.Config.Username, Value := .nil,
            Comment := "", FeatureType := .unset, Namespace := "" } true err :: rest) ∧
    (cc.Config.GitEnabled = false →
      (cc.Delete env ctx w).1 = 0 ∧
      (cc.Delete env ctx w).2.calls = w.calls ++ [Call.Delete name scope none]) := by
  have heq : cc.Delete env ctx w =
      cc.CommitFeatures
        { Key := name, Scope := scope, UpdatedBy := cc.Config.Username, Value := .nil,
          Comment := "", FeatureType := .unset, Namespace := "" }
        true
        (Say "deleted flag %s/%s/%s" [.str cc.Config.Namespace, .str scope, .str name]
          (callDelete cc name scope w).2) := by
    subst hname
    simp only [Controller.Delete, hn, hscope, if_false]
    have hd' : (callDelete cc (ctx.Get "name").1 scope w).1 = none := by
      simpa [callDelete] using hd
    simp only [hd']
  refine ⟨heq, fun hgit => ?_, fun hgit => ?_⟩
  · obtain ⟨rest, hrest⟩ := CommitFeatures_calls_enabled cc
      { Key := name, Scope := scope, UpdatedBy := cc.Config.Username, Value := .nil,
        Comment := "", FeatureType := .unset, Namespace := "" }
      true
      (Say "deleted flag %s/%s/%s" [.str cc.Config.Namespace, .str scope, .str name]
        (callDelete cc name scope w).2) hgit
    refine ⟨(cc.Client.Commit
      { Key := name, Scope := scope, UpdatedBy := cc.Config.Username, Value := .nil,
        Comment := "", FeatureType := .unset, Namespace := "" }
      true (cc.Client.Delete name scope w.client).2).1, rest, ?_⟩
    rw [heq, hrest]
    simp [Say, callDelete, hd]
  · rw [heq, CommitFeatures_disabled _ _ _ _ hgit]
    simp [Say, callDelete, hd]

/-- Witness of C9: `delete -name flag -scope prod`, version control enabled, every
collaborator call succeeding. -/
theorem Delete_commits_tombstone_witness :
    (scriptedController true false [] none none none none).Delete env0
        (flags [("name", "flag"), ("scope", "prod")]) world0 =
      (scriptedController true false [] none none none none).CommitFeatures
        { Key := "flag", Scope := "prod",
          UpdatedBy := (scriptedController true false [] none none none none).Config.Username,
          Value := .nil, Comment := "", FeatureType := .unset, Namespace := "" }
        true
        (Say "deleted flag %s/%s/%s"
          [.str (scriptedController true false [] none none none none).Config.Namespace,
           .str "prod", .str "flag"]
          (callDelete (scriptedController true false [] none none none none)
            "flag" "prod" world0).2) ∧
    ((scriptedController true false [] none none none none).Config.GitEnabled = true →
      ∃ err rest,
      ((scriptedController true false [] none none none none).Delete env0
          (flags [("name", "flag"), ("scope", "prod")]) world0).2.calls = world0.calls ++
        Call.Delete "flag" "prod" none ::
        Call.Commit
          { Key := "flag", Scope := "prod",
            UpdatedBy := (scriptedController true false [] none none none none).Config.Username,
            Value := .nil, Comment := "", FeatureType := .unset, Namespace := "" }
          true err :: rest) ∧
    ((scriptedController true false [] none none none none).Config.GitEnabled = false →
      ((scriptedController true false [] none none none none).Delete env0
          (flags [("name", "flag"), ("scope", "prod")]) world0).1 = 0 ∧
      ((scriptedController true false [] none none none none).Delete env0
          (flags [("name", "flag"), ("scope", "prod")]) world0).2.calls
        = world0.calls ++ [Call.Delete "flag" "prod" none]) :=
  Delete_commits_tombstone env0 (scriptedController true false [] none none none none)
    (flags [("name", "flag"), ("scope", "prod")]) world0 "flag" "prod"
    rfl (by decide) rfl rfl

/-! ## Import -/

/-- The loop of `Import` adds exactly the calls of `importCalls`. -/
theorem importLoop_calls {σ : Type} (env : Env) (cc : Controller σ) (scope : String)
    (order : Entries) (w : World σ) :
    (cc.importLoop env scope order w).2.calls = w.calls ++ importCalls env cc scope order w.client := by
  induction order generalizing w with
  | nil => simp [Controller.importLoop, importCalls]
  | cons kv rest ih =>
    obtain ⟨k, v⟩ := kv
    simp only [Controller.importLoop, importCalls]
    rcases hs : (cc.Client.Set (NewFeature env k v "" "" scope cc.Config.Namespace)
        w.client).1.2 with _ | e
    · have hs' : (callSet cc (NewFeature env k v "" "" scope cc.Config.Namespace) w).1.2
          = none := by simpa [callSet] using hs
      simp only [hs']
      rw [ih]
      simp [Say, callSet, hs]
    · have hs' : (callSet cc (NewFeature env k v "" "" scope cc.Config.Namespace) w).1.2
          = some e := by simpa [callSet] using hs
      simp only [hs']
      simp [SayErr, callSet, hs]

/-- Every call of the loop is a `Set` on the key of one of the entries. -/
theorem importCalls_keys {σ : Type} (env : Env) (cc : Controller σ) (scope : String)
    (order : Entries) (s : σ) :
    ∀ c ∈ importCalls env cc scope order s, ∃ kv ∈ order, c.setKey = some kv.1 := by
  induction order generalizing s with
  | nil => simp [importCalls]
  | cons kv rest ih =>
    obtain ⟨k, v⟩ := kv
    intro c hc
    simp only [importCalls, List.mem_cons] at hc
    rcases hc with rfl | hc
    · exact ⟨(k, v), by simp, by simp [Call.setKey, NewFeature]⟩
    · rcases hs : (cc.Client.Set (NewFeature env k v "" "" scope cc.Config.Namespace) s).1.2
        with _ | e
      · rw [hs] at hc
        obtain ⟨kv, hkv, hkey⟩ := ih _ c hc
        exact ⟨kv, List.mem_cons_of_mem _ hkv, hkey⟩
      · rw [hs] at hc
        simp at hc

/-- In the loop, once the `Set` on the key `k` has failed, no entry after `k` is submitted,
and every entry before `k` has been submitted with success. -/
theorem importCalls_abort {σ : Type} (env : Env) (cc : Controller σ) (scope : String)
    (pre : Entries) (k : String) (v : Value) (post : Entries) (s : σ)
    (hkeys : ((pre ++ (k, v) :: post).map Prod.fst).Nodup)
    (hfail : ∃ ft e, Call.Set ft (some e) ∈ importCalls env cc scope (pre ++ (k, v) :: post) s ∧
      ft.Key = k) :
    (∀ kv ∈ post, ∀ c ∈ importCalls env cc scope (pre ++ (k, v) :: post) s,
      c.setKey ≠ some kv.1) ∧
    (∀ kv ∈ pre, ∃ c ∈ importCalls env cc scope (pre ++ (k, v) :: post) s,
      c.setKey = some kv.1 ∧ c.failed = false) := by
  induction pre generalizing s with
  | nil =>
    simp only [List.nil_append, List.map_cons, List.nodup_cons, List.mem_map, not_exists,
      not_and] at hkeys hfail ⊢
    obtain ⟨hk, -⟩ := hkeys
    obtain ⟨ft, e, hmem, hkey⟩ := hfail
    simp only [importCalls, List.mem_cons] at hmem ⊢
    rcases hs : (cc.Client.Set (NewFeature env k v "" "" scope cc.Config.Namespace) s).1.2
      with _ | e'
    · rw [hs] at hmem
      rcases hmem with h | h
      · simp at h
      · obtain ⟨kv, hkv, hkey'⟩ := importCalls_keys env cc scope post _ _ h
        simp only [Call.setKey, Option.some.injEq] at hkey'
        exact absurd (hkey'.symm.trans hkey) (hk kv hkv)
    · refine ⟨?_, by simp⟩
      intro kv hkv c hc
      simp only [List.not_mem_nil, or_false] at hc
      subst hc
      simp only [Call.setKey, NewFeature, ne_eq, Option.some.injEq]
      intro h
      exact hk kv hkv h.symm
  | cons kv0 pre ih =>
    obtain ⟨k0, v0⟩ := kv0
    simp only [List.cons_append, List.map_cons, List.nodup_cons] at hkeys
    obtain ⟨hk0, hrest⟩ := hkeys
    obtain ⟨ft, e, hmem, hkey⟩ := hfail
    have hk0k : k0 ≠ k := by
      intro h
      apply hk0
      simp [h]
    simp only [List.cons_append, importCalls, List.mem_cons] at hmem ⊢
    rcases hs : (cc.Client.Set (NewFeature env k0 v0 "" "" scope cc.Config.Namespace) s).1.2
      with _ | e'
    · rw [hs] at hmem
      simp only []
      rcases hmem with h | h
      · simp at h
      · obtain ⟨hpost, hpre⟩ := ih _ hrest ⟨ft, e, h, hkey⟩
        constructor
        · intro kv hkv c hc
          rcases hc with rfl | hc
          · simp only [Call.setKey, NewFeature, ne_eq, Option.some.injEq]
            intro h0
            apply hk0
            rw [h0]
            simp only [List.map_append, List.map_cons, List.mem_append, List.mem_cons,
              List.mem_map]
            exact Or.inr (Or.inr ⟨kv, hkv, rfl⟩)
          · exact hpost kv hkv c hc
        · intro kv hkv
          rcases hkv with rfl | hkv
          · exact ⟨_, Or.inl rfl, by simp [Call.setKey, NewFeature], by simp [Call.failed]⟩
          · obtain ⟨c, hc, h1, h2⟩ := hpre kv hkv
            exact ⟨c, Or.inr hc, h1, h2⟩
    · rw [hs] at hmem
      simp only [List.not_mem_nil, or_false] at hmem
      injection hmem with hft _
      subst hft
      simp [NewFeature] at hkey
      exact absurd hkey hk0k

/-- C10, the claim fails: the object has the keys `a`, `b`, `c` in that order, the `range`
over the decoded map visits `c`, `a`, `b`, and the `Set` for `b` fails. The key `c`, which
follows `b` in the source object, has been submitted to `Set`. -/
theorem Import_source_order_counterexample :
    rt0.Unmarshal "\x7b\"a\":1,\"b\":true,\"c\":\"bad\"\x7d"
      = .ok [("a", .float64 (.finite 1)), ("b", .bool true), ("c", .string "bad")] ∧
    ((scriptedController false false ["b"] none none none none).Import env0 rt0
        (flags []) world0).2.calls =
      [Call.Set { Key := "c", Value := .string "bad", Scope := "default", Namespace := "ns" } none,
       Call.Set { Key := "a", Value := .float64 (.finite 1), Scope := "default",
                  Namespace := "ns" } none,
       Call.Set { Key := "b", Value := .bool true, Scope := "default", Namespace := "ns" }
         (some (.other "set failed"))] ∧
    ¬ ∀ c ∈ ((scriptedController false false ["b"] none none none none).Import env0 rt0
        (flags []) world0).2.calls, c.setKey ≠ some "c" := by
  refine ⟨rfl, rfl, ?_⟩
  intro h
  exact h _ (List.mem_cons_self _ _) rfl

/-- C10 as amended. `Import` visits the entries of the decoded object in the order of the
`range` over the decoded map, whatever that order is, and aborts at the first failing key:
if the `Set` for the key `k` fails, no key that follows `k` in that order is submitted to
`Set`, and every key that precedes `k` in that order has been submitted with success. The
calls `Import` makes are added after those made before it. -/
theorem Import_aborts_in_range_order {σ : Type} (env : Env) (rt : Runtime) (cc : Controller σ)
    (ctx : Context) (w : World σ) (bts : String) (kvs pre post : Entries) (k : String)
    (v : Value)
    (hread : rt.ReadAllStdin = .ok bts) (hjson : rt.Unmarshal bts = .ok kvs)
    (hkeys : ((rt.rangeOrder kvs).map Prod.fst).Nodup)
    (horder : rt.rangeOrder kvs = pre ++ (k, v) :: post)
    (hfail : ∃ ft e, Call.Set ft (some e) ∈ newCalls w (cc.Import env rt ctx w).2 ∧
      ft.Key = k) :
    (cc.Import env rt ctx w).2.calls = w.calls ++ newCalls w (cc.Import env rt ctx w).2 ∧
    (∀ kv ∈ post, ∀ c ∈ newCalls w (cc.Import env rt ctx w).2, c.setKey ≠ some kv.1) ∧
    (∀ kv ∈ pre, ∃ c ∈ newCalls w (cc.Import env rt ctx w).2,
      c.setKey = some kv.1 ∧ c.failed = false) := by
  have hcalls : (cc.Import env rt ctx w).2.calls = w.calls ++
      importCalls env cc
        (if (ctx.Get "scope").1 = "" then env.DefaultScope else (ctx.Get "scope").1)
        (pre ++ (k, v) :: post) w.client := by
    simp only [Controller.Import, hread, hjson, horder]
    exact importLoop_calls env cc _ _ w
  have hnew : newCalls w (cc.Import env rt ctx w).2 =
      importCalls env cc
        (if (ctx.Get "scope").1 = "" then env.DefaultScope else (ctx.Get "scope").1)
        (pre ++ (k, v) :: post) w.client := by
    simp [newCalls, hcalls]
  rw [hnew] at hfail ⊢
  rw [horder] at hkeys
  exact ⟨hcalls, importCalls_abort env cc _ pre k v post w.client hkeys hfail⟩

/-- Witness of C10 as amended: the `range` visits `c`, `a`, `b` and the `Set` for `a`
fails: `b` is never submitted, `c` has been. -/
theorem Import_aborts_in_range_order_witness :
    ((scriptedController false false ["a"] none none none none).Import env0 rt0
        (flags []) world0).2.calls = world0.calls ++
      newCalls world0 ((scriptedController false false ["a"] none none none none).Import env0
        rt0 (flags []) world0).2 ∧
    (∀ kv ∈ [("b", Value.bool true)],
      ∀ c ∈ newCalls world0 ((scriptedController false false ["a"] none none none none).Import
        env0 rt0 (flags []) world0).2, c.setKey ≠ some kv.1) ∧
    (∀ kv ∈ [("c", Value.string "bad")],
      ∃ c ∈ newCalls world0 ((scriptedController false false ["a"] none none none none).Import
        env0 rt0 (flags []) world0).2, c.setKey = some kv.1 ∧ c.failed = false) :=
  Import_aborts_in_range_order env0 rt0
    (scriptedController false false ["a"] none none none none) (flags []) world0
    "\x7b\"a\":1,\"b\":true,\"c\":\"bad\"\x7d"
    [("a", .float64 (.finite 1)), ("b", .bool true), ("c", .string "bad")]
    [("c", .string "bad")] [("b", .bool true)] "a" (.float64 (.finite 1))
    rfl rfl (by decide) rfl
    ⟨{ Key := "a", Value := .float64 (.finite 1), Scope := "default", Namespace := "ns" },
      .other "set failed", List.mem_cons_of_mem _ (List.mem_cons_self _ _), rfl⟩

/-- The loop of `Import` ends with the exit code 1, however it ends. -/
theorem importLoop_exit {σ : Type} (env : Env) (cc : Controller σ) (scope : String)
    (order : Entries) (w : World σ) :
    (cc.importLoop env scope order w).1 = 1 := by
  induction order generalizing w with
  | nil => simp [Controller.importLoop]
  | cons kv rest ih =>
    obtain ⟨k, v⟩ := kv
    simp only [Controller.importLoop]
    rcases hs : (callSet cc (NewFeature env k v "" "" scope cc.Config.Namespace) w).1.2
      with _ | e
    · simp only []
      exact ih _
    · simp

/-- C11. `Import` returns the exit code 1 for every input: when standard input cannot be
read, when it does not decode, when the `Set` of a key fails, and also when the input
decodes and the `Set` of every key succeeds. -/
theorem Import_always_returns_one {σ : Type} (env : Env) (rt : Runtime) (cc : Controller σ)
    (ctx : Context) (w : World σ) :
    (cc.Import env rt ctx w).1 = 1 := by
  unfold Controller.Import
  rcases hr : rt.ReadAllStdin with err | bts
  · simp
  · simp only []
    rcases hj : rt.Unmarshal bts with err | kvs
    · simp
    · exact importLoop_exit env cc _ _ w

/-- Every call of the loop of `Import` is a `Set`. -/
theorem importCalls_are_sets {σ : Type} (env : Env) (cc : Controller σ) (scope : String)
    (order : Entries) (s : σ) :
    ∀ c ∈ importCalls env cc scope order s, ∃ ft err, c = Call.Set ft err := by
  intro c hc
  obtain ⟨kv, -, hkey⟩ := importCalls_keys env cc scope order s c hc
  cases c <;> simp [Call.setKey] at hkey ⊢

/-- The calls of `Import` come after those made before it, and are those of its loop when
the input was read and decoded, and none otherwise. -/
theorem Import_calls {σ : Type} (env : Env) (rt : Runtime) (cc : Controller σ)
    (ctx : Context) (w : World σ) :
    ∃ new, (cc.Import env rt ctx w).2.calls = w.calls ++ new ∧
      newCalls w (cc.Import env rt ctx w).2 = new ∧
      (new = [] ∨ ∃ bts kvs, rt.ReadAllStdin = .ok bts ∧ rt.Unmarshal bts = .ok kvs ∧
        new = importCalls env cc
          (if (ctx.Get "scope").1 = "" then env.DefaultScope else (ctx.Get "scope").1)
          (rt.rangeOrder kvs) w.client) := by
  unfold Controller.Import
  rcases hr : rt.ReadAllStdin with err | bts
  · exact ⟨[], by simp [SayErr], by simp [newCalls, SayErr], Or.inl rfl⟩
  · simp only []
    rcases hj : rt.Unmarshal bts with err | kvs
    · exact ⟨[], by simp [SayErr], by simp [newCalls, SayErr], Or.inl rfl⟩
    · refine ⟨_, importLoop_calls env cc _ _ w, ?_, Or.inr ⟨bts, kvs, rfl, hj, rfl⟩⟩
      simp [newCalls, importLoop_calls]

/-- C12, the claim fails: version control and push enabled, the object with the keys `a`,
`b`, `c` imported with every `Set` succeeding. The calls of `Import` are the three `Set`
calls and nothing else: no `Commit` for any stored key. The `set` command on the key `b`
on the same controller goes on to `Commit`, `UpdateCurrentSha` and `Push`, and submits a
feature with an actor and a feature type. -/
theorem Import_commit_counterexample :
    (scriptedController true true [] none none none none).Config.GitEnabled = true ∧
    ((scriptedController true true [] none none none none).Import env0 rt0
        (flags []) world0).2.calls =
      [Call.Set { Key := "c", Value := .string "bad", Scope := "default", Namespace := "ns" } none,
       Call.Set { Key := "a", Value := .float64 (.finite 1), Scope := "default",
                  Namespace := "ns" } none,
       Call.Set { Key := "b", Value := .bool true, Scope := "default", Namespace := "ns" }
         none] ∧
    (¬ ∃ c ∈ ((scriptedController true true [] none none none none).Import env0 rt0
        (flags []) world0).2.calls, c.isPipeline = true) ∧
    ((scriptedController true true [] none none none none).Set env0
        (flags [("name", "b"), ("value", "true")]) world0).2.calls =
      [Call.Set { Key := "b", Value := .bool true, FeatureType := .Boolean, Scope := "default",
                  Namespace := "ns", UpdatedBy := "alice" } none,
       Call.Commit { Key := "b", Value := .bool true, FeatureType := .Boolean,
                     Scope := "default", Namespace := "ns", UpdatedBy := "alice" } false none,
       Call.UpdateCurrentSha "sha" none,
       Call.Push none] := by
  refine ⟨rfl, rfl, ?_, rfl⟩
  rintro ⟨c, hc, hp⟩
  have hcalls : ((scriptedController true true [] none none none none).Import env0 rt0
      (flags []) world0).2.calls =
      [Call.Set { Key := "c", Value := .string "bad", Scope := "default", Namespace := "ns" } none,
       Call.Set { Key := "a", Value := .float64 (.finite 1), Scope := "default",
                  Namespace := "ns" } none,
       Call.Set { Key := "b", Value := .bool true, Scope := "default", Namespace := "ns" }
         none] := rfl
  rw [hcalls] at hc
  simp only [List.mem_cons, List.mem_singleton, List.not_mem_nil, or_false] at hc
  rcases hc with rfl | rfl | rfl <;> simp [Call.isPipeline] at hp

/-- C12 as amended. `Import` does not go through the `Set` operation of the controller: it
hands each feature straight to the `Set` of the storage collaborator. Whatever the input
and the version control and push settings, every collaborator call `Import` makes is a
`Set`, and none is a `Commit`, an `UpdateCurrentSha` or a `Push`. -/
theorem Import_bypasses_pipeline {σ : Type} (env : Env) (rt : Runtime) (cc : Controller σ)
    (ctx : Context) (w : World σ) :
    (cc.Import env rt ctx w).2.calls = w.calls ++ newCalls w (cc.Import env rt ctx w).2 ∧
    ∀ c ∈ newCalls w (cc.Import env rt ctx w).2,
      (∃ ft err, c = Call.Set ft err) ∧ c.isPipeline = false := by
  obtain ⟨new, hcalls, hnew, hshape⟩ := Import_calls env rt cc ctx w
  rw [hnew]
  refine ⟨hcalls, fun c hc => ?_⟩
  have hset : ∃ ft err, c = Call.Set ft err := by
    rcases hshape with rfl | ⟨bts, kvs, -, -, rfl⟩
    · simp at hc
    · exact importCalls_are_sets env cc _ _ _ c hc
  obtain ⟨ft, err, rfl⟩ := hset
  exact ⟨⟨ft, err, rfl⟩, rfl⟩

/-! ## Failure of the storage collaborator -/

/-- C13. If the collaborator `Set` fails on the parsed feature, `Set` returns 1 and that
`Set` is its only collaborator call; if the collaborator `Delete` fails on a non-empty name,
`Delete` returns 1 and that `Delete` is its only collaborator call. So the commit pipeline
is not entered, whatever the version control and push settings. -/
theorem store_failure_skips_pipeline {σ : Type} (env : Env) (cc : Controller σ) (ctx : Context)
    (w : World σ) :
    (∀ ft e, cc.ParseContext env ctx = some (.ok ft) →
      (cc.Client.Set ft w.client).1.2 = some e →
      (cc.Set env ctx w).1 = some 1 ∧
      (cc.Set env ctx w).2.calls = w.calls ++ [Call.Set ft (some e)] ∧
      ∀ c ∈ newCalls w (cc.Set env ctx w).2, c.isPipeline = false) ∧
    (∀ e, (ctx.Get "name").1 ≠ "" →
      (cc.Client.Delete (ctx.Get "name").1
        (if (ctx.Get "scope").1 = "" then env.DefaultScope else (ctx.Get "scope").1)
        w.client).1 = some e →
      (cc.Delete env ctx w).1 = 1 ∧
      (cc.Delete env ctx w).2.calls = w.calls ++
        [Call.Delete (ctx.Get "name").1
          (if (ctx.Get "scope").1 = "" then env.DefaultScope else (ctx.Get "scope").1)
          (some e)] ∧
      ∀ c ∈ newCalls w (cc.Delete env ctx w).2, c.isPipeline = false) := by
  constructor
  · intro ft e hp hs
    have hres : cc.Set env ctx w =
        (some 1, SayErr "set error: %v" [.err e] (callSet cc ft w).2) := by
      simp [Controller.Set, hp, callSet, hs]
    rw [hres]
    simp [SayErr, callSet, hs, newCalls, Call.isPipeline]
  · intro e hn hd
    have hres : cc.Delete env ctx w =
        (1, SayErr "%v" [.err e] (callDelete cc (ctx.Get "name").1
          (if (ctx.Get "scope").1 = "" then env.DefaultScope else (ctx.Get "scope").1) w).2) := by
      simp [Controller.Delete, hn, callDelete, hd]
    rw [hres]
    simp [SayErr, callDelete, hd, newCalls, Call.isPipeline]

/-- Witness of C13: `set -name flag -value true` against a collaborator whose `Set` fails
on `flag`, and `delete -name flag` against one whose `Delete` fails, version control and
push enabled. -/
theorem store_failure_skips_pipeline_witness :
    (((scriptedController true true ["flag"] none none none none).Set env0
        (flags [("name", "flag"), ("value", "true")]) world0).1 = some 1 ∧
      ((scriptedController true true ["flag"] none none none none).Set env0
        (flags [("name", "flag"), ("value", "true")]) world0).2.calls = world0.calls ++
        [Call.Set { Key := "flag", Value := .bool true, FeatureType := .Boolean,
                    Scope := "default", Namespace := "ns", UpdatedBy := "alice" }
          (some (.other "set failed"))] ∧
      ∀ c ∈ newCalls world0 ((scriptedController true true ["flag"] none none none none).Set
        env0 (flags [("name", "flag"), ("value", "true")]) world0).2, c.isPipeline = false) ∧
    (((scriptedController true true [] (some (.other "not found")) none none none).Delete env0
        (flags [("name", "flag")]) world0).1 = 1 ∧
      ((scriptedController true true [] (some (.other "not found")) none none none).Delete env0
        (flags [("name", "flag")]) world0).2.calls = world0.calls ++
        [Call.Delete ((flags [("name", "flag")]).Get "name").1
          (if ((flags [("name", "flag")]).Get "scope").1 = "" then env0.DefaultScope
            else ((flags [("name", "flag")]).Get "scope").1)
          (some (.other "not found"))] ∧
      ∀ c ∈ newCalls world0
        ((scriptedController true true [] (some (.other "not found")) none none none).Delete
          env0 (flags [("name", "flag")]) world0).2, c.isPipeline = false) :=
  ⟨(store_failure_skips_pipeline env0 (scriptedController true true ["flag"] none none none none)
      (flags [("name", "flag"), ("value", "true")]) world0).1
      { Key := "flag", Value := .bool true, FeatureType := .Boolean,
        Scope := "default", Namespace := "ns", UpdatedBy := "alice" }
      (.other "set failed") rfl rfl,
   (store_failure_skips_pipeline env0
      (scriptedController true true [] (some (.other "not found")) none none none)
      (flags [("name", "flag")]) world0).2 (.other "not found") (by decide) rfl⟩

/-! ## List -/

/-- C14. `List` calls the collaborator `List` once, first, with the given prefix and with
the scope `DefaultScope` when the prefix is not empty and the scope is blank, the given
scope otherwise; the only call that can follow is the `Namespace` of the "nothing found"
message. A blank scope stays blank when the prefix is empty. With a non-empty prefix, a
blank scope and the scope `DefaultScope` give the same exit code and the same world. -/
theorem List_effective_scope {σ : Type} (env : Env) (cc : Controller σ) (ctx ctx2 : Context)
    (w : World σ) :
    (∃ err rest, (cc.List env ctx w).2.calls = w.calls ++
        Call.List (ctx.Get "prefix").1
          (if (ctx.Get "prefix").1 ≠ "" ∧ (ctx.Get "scope").1 = "" then env.DefaultScope
            else (ctx.Get "scope").1) err :: rest ∧
      (rest = [] ∨ rest = [Call.Namespace])) ∧
    ((ctx.Get "prefix").1 = "" → (ctx.Get "scope").1 = "" →
      ∃ err rest, (cc.List env ctx w).2.calls = w.calls ++ Call.List "" "" err :: rest) ∧
    ((ctx.Get "prefix").1 ≠ "" → (ctx.Get "scope").1 = "" →
      (ctx2.Get "prefix").1 = (ctx.Get "prefix").1 → (ctx2.Get "scope").1 = env.DefaultScope →
      cc.List env ctx w = cc.List env ctx2 w) := by
  have hshape : ∃ err rest, (cc.List env ctx w).2.calls = w.calls ++
        Call.List (ctx.Get "prefix").1
          (if (ctx.Get "prefix").1 ≠ "" ∧ (ctx.Get "scope").1 = "" then env.DefaultScope
            else (ctx.Get "scope").1) err :: rest ∧
      (rest = [] ∨ rest = [Call.Namespace]) := by
    unfold Controller.List
    simp only []
    rcases hl : (callList cc (ctx.Get "prefix").1
        (if (ctx.Get "prefix").1 ≠ "" ∧ (ctx.Get "scope").1 = "" then env.DefaultScope
          else (ctx.Get "scope").1) w).1 with err | features
    · exact ⟨_, [], by simp [SayErr, callList]; rfl, Or.inl rfl⟩
    · by_cases hlen : features.length = 0
      · exact ⟨_, [Call.Namespace], by simp [hlen, Say, callList]; rfl, Or.inr rfl⟩
      · exact ⟨_, [], by simp [hlen, callList]; rfl, Or.inl rfl⟩
  refine ⟨hshape, fun hp hs => ?_, fun hp hs hp2 hs2 => ?_⟩
  · obtain ⟨err, rest, h, -⟩ := hshape
    refine ⟨err, rest, ?_⟩
    rw [h]
    simp [hp, hs]
  · simp [Controller.List, hp, hs, hp2, hs2]

/-- Witness of C14: `list -prefix roll` against `list -prefix roll -scope default`, and
`list` with neither prefix nor scope. -/
theorem List_effective_scope_witness :
    ((scriptedController true true [] none none none none).List env0
        (flags [("prefix", "roll")]) world0
      = (scriptedController true true [] none none none none).List env0
        (flags [("prefix", "roll"), ("scope", "default")]) world0) ∧
    (∃ err rest, ((scriptedController true true [] none none none none).List env0
        (flags []) world0).2.calls = world0.calls ++ Call.List "" "" err :: rest) :=
  ⟨(List_effective_scope env0 (scriptedController true true [] none none none none)
      (flags [("prefix", "roll")]) (flags [("prefix", "roll"), ("scope", "default")])
      world0).2.2 (by decide) rfl rfl rfl,
   (List_effective_scope env0 (scriptedController true true [] none none none none)
      (flags []) (flags []) world0).2.1 rfl rfl⟩

/-! ## Init -/

/-- C15. When the configuration file exists or is scaffolded with success: with version
control disabled `Init` returns 0 and makes no collaborator call, whatever the `create`
flag; with version control enabled its only collaborator call is `InitRepo(create)`, and
it returns 1 when that call fails and 0 when it succeeds. -/
theorem Init_repository {σ : Type} (fs : FileSystem) (cc : Controller σ) (ctx : Context)
    (w : World σ)
    (hfs : fs.StatIsNotExist = false ∨ (fs.MkdirAll = none ∧ fs.WriteFile = none)) :
    (cc.Config.GitEnabled = false →
      (cc.Init fs ctx w).1 = 0 ∧ (cc.Init fs ctx w).2.calls = w.calls ∧
      (cc.Init fs ctx w).2.client = w.client) ∧
    (cc.Config.GitEnabled = true →
      (cc.Init fs ctx w).2.calls = w.calls ++
        [Call.InitRepo (ctx.Is "create") (cc.Client.InitRepo (ctx.Is "create") w.client).1] ∧
      ((cc.Init fs ctx w).1 = 1 ↔
        (cc.Client.InitRepo (ctx.Is "create") w.client).1 ≠ none) ∧
      ((cc.Init fs ctx w).1 = 0 ↔
        (cc.Client.InitRepo (ctx.Is "create") w.client).1 = none)) := by
  have hinit : ∃ w1 : World σ, w1.calls = w.calls ∧ w1.client = w.client ∧
      cc.Init fs ctx w = cc.initRepository ctx w1 := by
    unfold Controller.Init
    rcases hfs with h | ⟨hm, hw⟩
    · exact ⟨w, rfl, rfl, by simp [h]⟩
    · by_cases hstat : fs.StatIsNotExist = true
      · refine ⟨Say "%s not found. creating example config" [.str fs.ConfigPath]
          (Say "creating %s" [.str fs.ConfigDir] w), rfl, rfl, ?_⟩
        simp only [hstat, hm, hw, if_true]
      · exact ⟨w, rfl, rfl, by simp [hstat]⟩
  obtain ⟨w1, hc1, hs1, hw1⟩ := hinit
  rw [hw1]
  constructor
  · intro hgit
    simp [Controller.initRepository, hgit, Say, hc1, hs1]
  · intro hgit
    unfold Controller.initRepository
    simp only [hgit, Bool.not_true, Bool.false_eq_true, if_false]
    rcases hr : (cc.Client.InitRepo (ctx.Is "create") w.client).1 with _ | e
    · have hr1 : (callInitRepo cc (ctx.Is "create") w1).1 = none := by
        simpa [callInitRepo, hs1] using hr
      simp only [hr1]
      by_cases hcreate : ctx.Is "create" = true
      · simp [hcreate, Say, callInitRepo, hs1, hc1]
        simpa [hcreate] using hr
      · simp [hcreate, Say, callInitRepo, hs1, hc1]
        simpa [hcreate] using hr
    · have hr1 : (callInitRepo cc (ctx.Is "create") w1).1 = some e := by
        simpa [callInitRepo, hs1] using hr
      simp only [hr1]
      simp [SayErr, callInitRepo, hs1, hc1, hr]

/-- Witness of C15: `init -create` with version control disabled and the configuration
scaffolded, and with version control enabled, the configuration present and `InitRepo`
failing. -/
theorem Init_repository_witness :
    (((initController false none).Init fsScaffold createFlag world0).1 = 0 ∧
      ((initController false none).Init fsScaffold createFlag world0).2.calls = world0.calls ∧
      ((initController false none).Init fsScaffold createFlag world0).2.client
        = world0.client) ∧
    (((initController true (some (.other "no remote"))).Init fsPresent createFlag world0).2.calls
        = world0.calls ++ [Call.InitRepo (createFlag.Is "create")
          ((initController true (some (.other "no remote"))).Client.InitRepo
            (createFlag.Is "create") world0.client).1] ∧
      (((initController true (some (.other "no remote"))).Init fsPresent createFlag world0).1 = 1
        ↔ ((initController true (some (.other "no remote"))).Client.InitRepo
            (createFlag.Is "create") world0.client).1 ≠ none) ∧
      (((initController true (some (.other "no remote"))).Init fsPresent createFlag world0).1 = 0
        ↔ ((initController true (some (.other "no remote"))).Client.InitRepo
            (createFlag.Is "create") world0.client).1 = none)) :=
  ⟨(Init_repository fsScaffold (initController false none) createFlag world0
      (Or.inr ⟨rfl, rfl⟩)).1 rfl,
   (Init_repository fsPresent (initController true (some (.other "no remote"))) createFlag world0
      (Or.inl rfl)).2 rfl⟩

/-! ## The calls of Import -/

/-- The calls of the loop of `Import` over `order`: one `Set` per entry of an initial
segment of `order`, on the feature built from the entry; a failed call is the last one; if
no call failed every entry was visited. -/
theorem importCalls_shape {σ : Type} (env : Env) (cc : Controller σ) (scope : String)
    (order : Entries) (s : σ) :
    (importCalls env cc scope order s).length ≤ order.length ∧
    (importCalls env cc scope order s).map Call.setArg =
      (order.take (importCalls env cc scope order s).length).map
        (fun kv => some (NewFeature env kv.1 kv.2 "" "" scope cc.Config.Namespace)) ∧
    (∀ pre c post, importCalls env cc scope order s = pre ++ c :: post →
      c.failed = true → post = []) ∧
    ((∀ c ∈ importCalls env cc scope order s, c.failed = false) →
      (importCalls env cc scope order s).length = order.length) := by
  induction order generalizing s with
  | nil =>
    simp [importCalls]
  | cons kv rest ih =>
    obtain ⟨k, v⟩ := kv
    rcases hs : (cc.Client.Set (NewFeature env k v "" "" scope cc.Config.Namespace) s).1.2
      with _ | e
    · obtain ⟨hlen, hmap, hlast, hall⟩ :=
        ih (cc.Client.Set (NewFeature env k v "" "" scope cc.Config.Namespace) s).2
      have hL : importCalls env cc scope ((k, v) :: rest) s =
          Call.Set (NewFeature env k v "" "" scope cc.Config.Namespace) none ::
            importCalls env cc scope rest
              (cc.Client.Set (NewFeature env k v "" "" scope cc.Config.Namespace) s).2 := by
        simp [importCalls, hs]
      rw [hL]
      refine ⟨by simpa using hlen, by simp [Call.setArg, hmap], ?_, ?_⟩
      · intro pre c post hsplit hfailed
        rcases pre with _ | ⟨p, pre⟩
        · simp only [List.nil_append, List.cons.injEq] at hsplit
          rw [← hsplit.1] at hfailed
          simp [Call.failed] at hfailed
        · simp only [List.cons_append, List.cons.injEq] at hsplit
          exact hlast pre c post hsplit.2 hfailed
      · intro hnone
        have := hall (fun c hc => hnone c (List.mem_cons_of_mem _ hc))
        simp [this]
    · have hL : importCalls env cc scope ((k, v) :: rest) s =
          [Call.Set (NewFeature env k v "" "" scope cc.Config.Namespace) (some e)] := by
        simp [importCalls, hs]
      rw [hL]
      refine ⟨by simp, by simp [Call.setArg], ?_, ?_⟩
      · intro pre c post hsplit _
        rcases pre with _ | ⟨p, pre⟩
        · simp only [List.nil_append, List.cons.injEq] at hsplit
          exact hsplit.2.symm
        · simp at hsplit
      · intro hnone
        have := hnone _ (List.mem_singleton_self _)
        simp [Call.failed] at this

/-- C16. Whatever the order in which the `range` of `Import` visits the decoded entries:
the collaborator calls of `Import` are one `Set` per entry of an initial segment of that
order, in that order, each on the feature built from the key, the decoded value as it is,
an empty comment, an empty actor and the effective scope (given, or `DefaultScope`); a
`Set` that failed is the last call; and if no `Set` failed every entry was submitted. -/
theorem Import_calls_up_to_first_failure {σ : Type} (env : Env) (rt : Runtime)
    (cc : Controller σ) (ctx : Context) (w : World σ) (bts : String) (kvs : Entries)
    (hread : rt.ReadAllStdin = .ok bts) (hjson : rt.Unmarshal bts = .ok kvs) :
    (cc.Import env rt ctx w).2.calls = w.calls ++ newCalls w (cc.Import env rt ctx w).2 ∧
    (newCalls w (cc.Import env rt ctx w).2).length ≤ (rt.rangeOrder kvs).length ∧
    (newCalls w (cc.Import env rt ctx w).2).map Call.setArg =
      ((rt.rangeOrder kvs).take (newCalls w (cc.Import env rt ctx w).2).length).map
        (fun kv => some (NewFeature env kv.1 kv.2 "" ""
          (if (ctx.Get "scope").1 = "" then env.DefaultScope else (ctx.Get "scope").1)
          cc.Config.Namespace)) ∧
    (∀ pre c post, newCalls w (cc.Import env rt ctx w).2 = pre ++ c :: post →
      c.failed = true → post = []) ∧
    ((∀ c ∈ newCalls w (cc.Import env rt ctx w).2, c.failed = false) →
      (newCalls w (cc.Import env rt ctx w).2).length = (rt.rangeOrder kvs).length) := by
  have hcalls : (cc.Import env rt ctx w).2.calls = w.calls ++
      importCalls env cc
        (if (ctx.Get "scope").1 = "" then env.DefaultScope else (ctx.Get "scope").1)
        (rt.rangeOrder kvs) w.client := by
    simp only [Controller.Import, hread, hjson]
    exact importLoop_calls env cc _ _ w
  have hnew : newCalls w (cc.Import env rt ctx w).2 =
      importCalls env cc
        (if (ctx.Get "scope").1 = "" then env.DefaultScope else (ctx.Get "scope").1)
        (rt.rangeOrder kvs) w.client := by
    simp [newCalls, hcalls]
  rw [hnew]
  exact ⟨hcalls, importCalls_shape env cc _ _ _⟩

/-- Witness of C16: the `range` visits `c`, `a`, `b`; once with the `Set` for `a` failing,
once with every `Set` succeeding, so that all three entries are submitted. -/
theorem Import_calls_up_to_first_failure_witness :
    (((scriptedController true true ["a"] none none none none).Import env0 rt0 (flags []) world0).2.calls = world0.calls ++
        newCalls world0 ((scriptedController true true ["a"] none none none none).Import env0 rt0 (flags []) world0).2 ∧
      (newCalls world0 ((scriptedController true true ["a"] none none none none).Import env0 rt0 (flags []) world0).2).length
        ≤ (rt0.rangeOrder [("a", .float64 (.finite 1)), ("b", .bool true), ("c", .string "bad")]).length ∧
      (newCalls world0 ((scriptedController true true ["a"] none none none none).Import env0 rt0 (flags []) world0).2).map Call.setArg =
        ((rt0.rangeOrder [("a", .float64 (.finite 1)), ("b", .bool true), ("c", .string "bad")]).take
          (newCalls world0 ((scriptedController true true ["a"] none none none none).Import env0 rt0 (flags []) world0).2).length).map
          (fun kv => some (NewFeature env0 kv.1 kv.2 "" ""
            (if ((flags []).Get "scope").1 = "" then env0.DefaultScope
              else ((flags []).Get "scope").1)
            (scriptedController true true ["a"] none none none none).Config.Namespace)) ∧
      (∀ pre c post,
        newCalls world0 ((scriptedController true true ["a"] none none none none).Import env0 rt0 (flags []) world0).2 = pre ++ c :: post →
        c.failed = true → post = []) ∧
      ((∀ c ∈ newCalls world0 ((scriptedController true true ["a"] none none none none).Import env0 rt0 (flags []) world0).2, c.failed = false) →
        (newCalls world0 ((scriptedController true true ["a"] none none none none).Import env0 rt0 (flags []) world0).2).length
          = (rt0.rangeOrder [("a", .float64 (.finite 1)), ("b", .bool true), ("c", .string "bad")]).length)) ∧
    (newCalls world0 ((scriptedController true true [] none none none none).Import env0 rt0 (flags []) world0).2).length
      = (rt0.rangeOrder [("a", .float64 (.finite 1)), ("b", .bool true), ("c", .string "bad")]).length :=
  ⟨Import_calls_up_to_first_failure env0 rt0 (scriptedController true true ["a"] none none none none) (flags []) world0
      "\x7b\"a\":1,\"b\":true,\"c\":\"bad\"\x7d"
      [("a", .float64 (.finite 1)), ("b", .bool true), ("c", .string "bad")] rfl rfl,
   (Import_calls_up_to_first_failure env0 rt0 (scriptedController true true [] none none none none) (flags []) world0
      "\x7b\"a\":1,\"b\":true,\"c\":\"bad\"\x7d"
      [("a", .float64 (.finite 1)), ("b", .bool true), ("c", .string "bad")] rfl rfl).2.2.2.2 (by decide)⟩

end Dcdr
